import Mathlib

/-!
# Verification of the EduAgentGPT insight validation and fallback engine

A shallow embedding of the repository's core logic:

* `src/insights.ts` — JSON extraction (`extractJsonObject`), schema validation
  (`parseStudentInsights`, `parseTeacherInsights`), rendering
  (`renderStudentMessage`, `renderTeacherMessage`) and deterministic fallback
  synthesis (`buildFallbackStudentInsights`, `buildFallbackTeacherInsights`);
* `src/analyzer.ts` — `average`, `topN`, `bottomN`, `determineRisk`,
  `analyzeStudent`;
* `src/validator.ts` — `validateGrade`, `validateStudent`, `validateStudents`;
* the orchestration step of `main.ts` that parses the provider text and falls
  back to the deterministic generator (`studentMessageFor`).

JavaScript numbers are modelled as rationals `ℚ`; machine strings as Lean
`String` (operating on their character lists).  The platform services
`JSON.parse` (modelled by the executable `jsonParse` below) and `Date.parse`
(modelled by an explicit boolean oracle argument) are not repository code, so
they are embedded as faithful executable models.
-/

/-- JSON values as produced by the platform `JSON.parse`.  Numbers are
modelled as rationals; object fields keep their textual order. -/
inductive Json where
  | null : Json
  | bool (b : Bool) : Json
  | num (q : ℚ) : Json
  | str (s : String) : Json
  | arr (elems : List Json) : Json
  | obj (fields : List (String × Json)) : Json

/-- The JSON whitespace characters (also those skipped by `JSON.parse`). -/
def jsonWs (c : Char) : Bool :=
  c = ' ' || c = '\t' || c = '\n' || c = '\r'

/-- Drop leading JSON whitespace. -/
def skipWs (cs : List Char) : List Char := cs.dropWhile jsonWs

/-- Value of a hexadecimal digit, if the character is one (code-point
arithmetic: 48–57 are the digits, 97–102 and 65–70 the letter ranges). -/
def hexDigitVal (c : Char) : Option Nat :=
  let n := c.toNat
  if 48 ≤ n && n ≤ 57 then some (n - 48)
  else if 97 ≤ n && n ≤ 102 then some (n - 87)
  else if 65 ≤ n && n ≤ 70 then some (n - 55)
  else none

/-- Decimal digit test. -/
def isDigitChar (c : Char) : Bool := '0' ≤ c && c ≤ '9'

/-- Numeric value of a list of decimal digits. -/
def digitsVal (cs : List Char) : Nat :=
  cs.foldl (fun acc c => acc * 10 + (c.toNat - '0'.toNat)) 0

/-- Parse the body of a JSON string literal (after the opening quote),
handling the escape sequences accepted by `JSON.parse`.  `fuel` bounds the
recursion; callers pass the length of the remaining input. -/
def parseStringBody : Nat → List Char → List Char → Option (String × List Char)
  | 0, _, _ => none
  | _ + 1, _, [] => none
  | fuel + 1, acc, c :: rest =>
    if c = '"' then some (String.mk acc.reverse, rest)
    else if c = '\\' then
      match rest with
      | [] => none
      | e :: rest2 =>
        if e = '"' then parseStringBody fuel ('"' :: acc) rest2
        else if e = '\\' then parseStringBody fuel ('\\' :: acc) rest2
        else if e = '/' then parseStringBody fuel ('/' :: acc) rest2
        else if e = 'b' then parseStringBody fuel ('\x08' :: acc) rest2
        else if e = 'f' then parseStringBody fuel ('\x0c' :: acc) rest2
        else if e = 'n' then parseStringBody fuel ('\n' :: acc) rest2
        else if e = 'r' then parseStringBody fuel ('\r' :: acc) rest2
        else if e = 't' then parseStringBody fuel ('\t' :: acc) rest2
        else if e = 'u' then
          match rest2 with
          | h1 :: h2 :: h3 :: h4 :: rest3 =>
            match hexDigitVal h1, hexDigitVal h2, hexDigitVal h3, hexDigitVal h4 with
            | some a, some b, some c2, some d =>
                parseStringBody fuel (Char.ofNat (((a * 16 + b) * 16 + c2) * 16 + d) :: acc) rest3
            | _, _, _, _ => none
          | _ => none
        else none
    else parseStringBody fuel (c :: acc) rest

/-- Parse the optional fractional part of a JSON number. -/
def parseFracPart (cs : List Char) : Option (List Char × List Char) :=
  match cs with
  | '.' :: t =>
      let d := t.takeWhile isDigitChar
      if d = [] then none else some (d, t.dropWhile isDigitChar)
  | _ => some ([], cs)

/-- Parse the optional exponent part of a JSON number. -/
def parseExpPart (cs : List Char) : Option (Int × List Char) :=
  match cs with
  | c :: t =>
      if c = 'e' || c = 'E' then
        match t with
        | '+' :: u =>
            let d := u.takeWhile isDigitChar
            if d = [] then none else some ((digitsVal d : Int), u.dropWhile isDigitChar)
        | '-' :: u =>
            let d := u.takeWhile isDigitChar
            if d = [] then none else some (-(digitsVal d : Int), u.dropWhile isDigitChar)
        | _ =>
            let d := t.takeWhile isDigitChar
            if d = [] then none else some ((digitsVal d : Int), t.dropWhile isDigitChar)
      else some (0, cs)
  | [] => some (0, [])

/-- Build the rational value of a JSON number from its parts. -/
def ratFromParts (neg : Bool) (ip fp : List Char) (ex : Int) : ℚ :=
  let mantNat : Int := (digitsVal (ip ++ fp) : Int)
  let mant : Int := if neg then -mantNat else mantNat
  let e : Int := ex - (fp.length : Int)
  if 0 ≤ e then mkRat (mant * ((10 : Int) ^ e.toNat)) 1
  else mkRat mant ((10 : Nat) ^ (-e).toNat)

/-- Parse a JSON number. -/
def parseNumber (cs : List Char) : Option (ℚ × List Char) :=
  let (neg, cs1) := match cs with | '-' :: t => (true, t) | _ => (false, cs)
  let ip := cs1.takeWhile isDigitChar
  if ip = [] then none
  else
    match parseFracPart (cs1.dropWhile isDigitChar) with
    | none => none
    | some (fp, cs2) =>
      match parseExpPart cs2 with
      | none => none
      | some (ex, cs3) => some (ratFromParts neg ip fp ex, cs3)

/-- Intermediate results of the recursive-descent JSON parser. -/
inductive PRes where
  | v (j : Json) : PRes
  | items (l : List Json) : PRes
  | fields (l : List (String × Json)) : PRes

/-- Recursive-descent JSON parser.  The second argument selects the
production (0 = value, 1 = array tail, 2 = object tail); `fuel` bounds the
recursion structurally so the definition is kernel-reducible. -/
def parseAux : Nat → Nat → List Char → Option (PRes × List Char)
  | 0, _, _ => none
  | fuel + 1, 0, cs0 =>
    match skipWs cs0 with
    | [] => none
    | c :: rest =>
      if c = 'n' then
        match rest with
        | 'u' :: 'l' :: 'l' :: r => some (PRes.v Json.null, r)
        | _ => none
      else if c = 't' then
        match rest with
        | 'r' :: 'u' :: 'e' :: r => some (PRes.v (Json.bool true), r)
        | _ => none
      else if c = 'f' then
        match rest with
        | 'a' :: 'l' :: 's' :: 'e' :: r => some (PRes.v (Json.bool false), r)
        | _ => none
      else if c = '"' then
        match parseStringBody rest.length [] rest with
        | some (s, r) => some (PRes.v (Json.str s), r)
        | none => none
      else if c = '[' then
        match skipWs rest with
        | ']' :: r => some (PRes.v (Json.arr []), r)
        | _ =>
          match parseAux fuel 1 rest with
          | some (PRes.items l, r) => some (PRes.v (Json.arr l), r)
          | _ => none
      else if c = '\x7b' then
        match skipWs rest with
        | '\x7d' :: r => some (PRes.v (Json.obj []), r)
        | _ =>
          match parseAux fuel 2 rest with
          | some (PRes.fields fs, r) => some (PRes.v (Json.obj fs), r)
          | _ => none
      else
        match parseNumber (c :: rest) with
        | some (q, r) => some (PRes.v (Json.num q), r)
        | none => none
  | fuel + 1, 1, cs =>
    match parseAux fuel 0 cs with
    | some (PRes.v j, rest) =>
      match skipWs rest with
      | ',' :: r2 =>
        match parseAux fuel 1 r2 with
        | some (PRes.items l, r3) => some (PRes.items (j :: l), r3)
        | _ => none
      | ']' :: r2 => some (PRes.items [j], r2)
      | _ => none
    | _ => none
  | fuel + 1, _ + 2, cs =>
    match skipWs cs with
    | '"' :: rest =>
      match parseStringBody rest.length [] rest with
      | some (k, r1) =>
        match skipWs r1 with
        | ':' :: r2 =>
          match parseAux fuel 0 r2 with
          | some (PRes.v j, r3) =>
            match skipWs r3 with
            | ',' :: r4 =>
              match parseAux fuel 2 r4 with
              | some (PRes.fields fs, r5) => some (PRes.fields ((k, j) :: fs), r5)
              | _ => none
            | '\x7d' :: r4 => some (PRes.fields [(k, j)], r4)
            | _ => none
          | _ => none
        | _ => none
      | none => none
    | _ => none

/-- Model of the platform `JSON.parse`: parse the whole string as one JSON
value, allowing surrounding whitespace; any leftover input is a parse
failure. -/
def jsonParse (s : String) : Option Json :=
  match parseAux (2 * s.data.length + 4) 0 s.data with
  | some (PRes.v j, rest) => if skipWs rest = [] then some j else none
  | _ => none

/-! ## Data model (`src/types.ts`) -/

/-- `PerformanceTrend` from `types.ts`. -/
inductive PerformanceTrend where
  | improving : PerformanceTrend
  | stable : PerformanceTrend
  | declining : PerformanceTrend
  deriving Repr, DecidableEq

/-- `Grade` from `types.ts`. -/
structure Grade where
  subject : String
  score : ℚ
  deriving Repr, DecidableEq

/-- `Student` from `types.ts`. -/
structure Student where
  id : String
  name : String
  email : String
  grades : List Grade
  participationScore : ℚ
  assignmentCompletionRate : ℚ
  teacherNotes : String
  performanceTrend : PerformanceTrend
  lastAssessmentDate : String
  deriving Repr, DecidableEq

/-- `StudentMetrics` from `types.ts`. -/
structure StudentMetrics where
  averageScore : ℚ
  highestSubjects : List Grade
  lowestSubjects : List Grade
  participationScore : ℚ
  assignmentCompletionRate : ℚ
  needsAttention : Bool
  deriving Repr, DecidableEq

/-- `RiskLevel` from `types.ts`. -/
inductive RiskLevel where
  | low : RiskLevel
  | medium : RiskLevel
  | high : RiskLevel
  deriving Repr, DecidableEq

/-- `StudentAnalysis` from `types.ts`. -/
structure StudentAnalysis where
  student : Student
  metrics : StudentMetrics
  strengths : List String
  improvementAreas : List String
  riskLevel : RiskLevel
  deriving Repr, DecidableEq

/-- `TeacherSummary` from `types.ts`. -/
structure TeacherSummary where
  classAverage : ℚ
  topStudents : List String
  attentionNeeded : List String
  notes : List String
  deriving Repr, DecidableEq

/-- The tone options of `TeacherPreferences`. -/
inductive Tone where
  | warm : Tone
  | neutral : Tone
  | direct : Tone
  deriving Repr, DecidableEq

/-- `TeacherPreferences` from `types.ts`; every field is optional. -/
structure TeacherPreferences where
  classGoals : Option (List String) := none
  focusAreas : Option (List String) := none
  preferredStrategies : Option (List String) := none
  tone : Option Tone := none
  teacherNotes : Option String := none
  deriving Repr, DecidableEq

/-- `StudentInsights` from `types.ts`. -/
structure StudentInsights where
  positiveObservation : String
  strengths : List String
  improvementAreas : List String
  strategies : List String
  nextStepGoal : String
  encouragement : String
  deriving Repr, DecidableEq

/-- An entry of `TeacherInsights.attentionNeeded`. -/
structure AttentionEntry where
  name : String
  reason : String
  deriving Repr, DecidableEq

/-- `TeacherInsights` from `types.ts`. -/
structure TeacherInsights where
  classOverview : String
  strengths : List String
  attentionNeeded : List AttentionEntry
  nextSteps : List String
  deriving Repr, DecidableEq

/-! ## String utilities shared by the embedding

JavaScript's `String.prototype.trim`, `slice`, `indexOf`, `lastIndexOf` and
`Array.prototype.join` are modelled on character lists so that every
definition reduces in the kernel. -/

/-- Whitespace for the model of JavaScript's `trim`. -/
def jsWsChar (c : Char) : Bool :=
  c = ' ' || c = '\t' || c = '\n' || c = '\r' || c = '\x0b' || c = '\x0c' || c = ' '

/-- Model of `String.prototype.trim`. -/
def jsTrim (s : String) : String :=
  String.mk (((s.data.dropWhile jsWsChar).reverse.dropWhile jsWsChar).reverse)

/-- Model of `Array.prototype.join(", ")` on a list of strings. -/
def joinComma : List String → String
  | [] => ""
  | [s] => s
  | s :: rest => s ++ ", " ++ joinComma rest

/-- Model of `Array.prototype.join("\n")` on the line arrays built by the
renderers. -/
def joinLines : List String → String
  | [] => ""
  | [s] => s
  | s :: rest => s ++ "\n" ++ joinLines rest

/-- Model of `String.prototype.indexOf` for a single character: index of the
first occurrence, if any. -/
def firstIdx (c : Char) : List Char → Option Nat
  | [] => none
  | x :: xs => if x = c then some 0 else (firstIdx c xs).map (· + 1)

/-- Model of `String.prototype.lastIndexOf` for a single character: index of
the last occurrence, if any. -/
def lastIdx (c : Char) : List Char → Option Nat
  | [] => none
  | x :: xs =>
    match lastIdx c xs with
    | some i => some (i + 1)
    | none => if x = c then some 0 else none

/-! ## `src/insights.ts` -/

/-- The validation result type of `insights.ts` and `validator.ts`: either a
value or a non-empty list of error strings. -/
inductive VRes (α : Type) where
  | ok (value : α) : VRes α
  | err (errors : List String) : VRes α
  deriving Repr, DecidableEq

/-- Whether a `VRes` is the success case (`result.ok` in the source). -/
def VRes.isOk {α : Type} : VRes α → Bool
  | .ok _ => true
  | .err _ => false

/-- Property access on a parsed JSON value, modelling `record.key` after the
source's `typeof parsed === "object"` check.  Arrays pass that check but have
no string-named own properties, so lookups on them give `undefined`; duplicate
keys resolve to the last occurrence, as in `JSON.parse`. -/
def jsonFields : Json → Option (List (String × Json))
  | Json.obj fields => some fields
  | Json.arr _ => some []
  | _ => none

/-- Model of reading property `key` of a parsed object (`undefined` ↦
`none`). -/
def getField (fields : List (String × Json)) (key : String) : Option Json :=
  (fields.reverse.find? (fun p => p.1 = key)).map (fun p => p.2)

/-- `safeString` from `insights.ts`: accept only a string whose trim is
non-empty, truncating it to `maxLen` characters. -/
def safeString (value : Option Json) (maxLen : Nat) : Option String :=
  match value with
  | some (Json.str s) =>
    let trimmed := jsTrim s
    if trimmed = "" then none
    else if trimmed.length > maxLen then some (String.mk (trimmed.data.take maxLen))
    else some trimmed
  | _ => none

/-- `normalizeStringArray` from `insights.ts`. -/
def normalizeStringArray (value : Option Json) (lo hi : Nat) (label : String) :
    VRes (List String) :=
  match value with
  | some (Json.arr items) =>
    let cleaned := items.filterMap (fun item => safeString (some item) 180)
    if cleaned.length < lo then
      VRes.err [label ++ " must include at least " ++ toString lo ++ " item(s)"]
    else VRes.ok (cleaned.take hi)
  | _ => VRes.err [label ++ " must be an array"]

/-- `extractJsonObject` from `insights.ts`: the span from the first `{` to
the last `}`, if both exist in that order. -/
def extractJsonObject (text : String) : Option String :=
  match firstIdx '\x7b' text.data, lastIdx '\x7d' text.data with
  | some start, some stop =>
    if stop ≤ start then none
    else some (String.mk ((text.data.drop start).take (stop - start + 1)))
  | _, _ => none

/-- `parseStudentInsights` from `insights.ts`: extract, parse and validate
the student insight payload.  Note the source returns the single generic
error `"Invalid student insights payload"` as soon as any of the three array
fields is invalid, before the per-field error collection below it. -/
def parseStudentInsights (raw : String) : VRes StudentInsights :=
  match extractJsonObject raw with
  | none => VRes.err ["No JSON object found in response"]
  | some jsonCandidate =>
    match jsonParse jsonCandidate with
    | none => VRes.err ["Invalid JSON in response"]
    | some parsed =>
      match jsonFields parsed with
      | none => VRes.err ["Response JSON must be an object"]
      | some record =>
        let positiveObservation := safeString (getField record "positiveObservation") 220
        let nextStepGoal := safeString (getField record "nextStepGoal") 200
        let encouragement := safeString (getField record "encouragement") 200
        let strengthsResult := normalizeStringArray (getField record "strengths") 1 3 "strengths"
        let improvementResult :=
          normalizeStringArray (getField record "improvementAreas") 1 2 "improvementAreas"
        let strategiesResult := normalizeStringArray (getField record "strategies") 2 3 "strategies"
        match strengthsResult, improvementResult, strategiesResult with
        | VRes.ok strengthsV, VRes.ok improvementV, VRes.ok strategiesV =>
          let errors :=
            (if positiveObservation.isNone then
              ["positiveObservation must be a non-empty string"] else []) ++
            (if nextStepGoal.isNone then ["nextStepGoal must be a non-empty string"] else []) ++
            (if encouragement.isNone then ["encouragement must be a non-empty string"] else [])
          if errors.length > 0 then VRes.err errors
          else
            VRes.ok
              { positiveObservation := positiveObservation.getD ""
                strengths := strengthsV
                improvementAreas := improvementV
                strategies := strategiesV
                nextStepGoal := nextStepGoal.getD ""
                encouragement := encouragement.getD "" }
        | _, _, _ => VRes.err ["Invalid student insights payload"]

/-- The per-item validation loop over `attentionNeeded` in
`parseTeacherInsights`: valid entries and per-index errors are accumulated
independently. -/
def teacherAttention (attentionRaw : Option Json) : List AttentionEntry × List String :=
  match attentionRaw with
  | some (Json.arr items) =>
    items.enum.foldl
      (fun acc p =>
        match jsonFields p.2 with
        | none =>
          (acc.1, acc.2 ++ ["attentionNeeded[" ++ toString p.1 ++ "] must be an object"])
        | some fields =>
          match safeString (getField fields "name") 80, safeString (getField fields "reason") 160 with
          | some nm, some rs => (acc.1 ++ [⟨nm, rs⟩], acc.2)
          | _, _ =>
            (acc.1,
              acc.2 ++ ["attentionNeeded[" ++ toString p.1 ++ "] must include name and reason"]))
      ([], [])
  | _ => ([], ["attentionNeeded must be an array"])

/-- `parseTeacherInsights` from `insights.ts`.  Unlike the student variant,
all field errors are collected before returning. -/
def parseTeacherInsights (raw : String) : VRes TeacherInsights :=
  match extractJsonObject raw with
  | none => VRes.err ["No JSON object found in response"]
  | some jsonCandidate =>
    match jsonParse jsonCandidate with
    | none => VRes.err ["Invalid JSON in response"]
    | some parsed =>
      match jsonFields parsed with
      | none => VRes.err ["Response JSON must be an object"]
      | some record =>
        let classOverview := safeString (getField record "classOverview") 240
        let strengthsResult := normalizeStringArray (getField record "strengths") 1 4 "strengths"
        let nextStepsResult := normalizeStringArray (getField record "nextSteps") 2 4 "nextSteps"
        let attention := teacherAttention (getField record "attentionNeeded")
        let errors :=
          (if classOverview.isNone then ["classOverview must be a non-empty string"] else []) ++
          (match strengthsResult with | VRes.err es => es | VRes.ok _ => []) ++
          (match nextStepsResult with | VRes.err es => es | VRes.ok _ => []) ++
          attention.2
        if errors.length > 0 then VRes.err errors
        else
          match strengthsResult, nextStepsResult with
          | VRes.ok strengthsV, VRes.ok nextStepsV =>
            VRes.ok
              { classOverview := classOverview.getD ""
                strengths := strengthsV
                attentionNeeded := attention.1
                nextSteps := nextStepsV }
          | _, _ => VRes.err ["Invalid teacher insights payload"]

/-- `renderStudentMessage` from `insights.ts`. -/
def renderStudentMessage (insights : StudentInsights) : String :=
  joinLines
    ([insights.positiveObservation, "", "Strengths:"] ++
      insights.strengths.map (fun item => "- " ++ item) ++
      ["", "Focus areas:"] ++
      insights.improvementAreas.map (fun item => "- " ++ item) ++
      ["", "Try this:"] ++
      insights.strategies.map (fun item => "- " ++ item) ++
      ["", "Next step goal: " ++ insights.nextStepGoal, "", insights.encouragement])

/-- `renderTeacherMessage` from `insights.ts`. -/
def renderTeacherMessage (insights : TeacherInsights) : String :=
  joinLines
    ([insights.classOverview, "", "Class strengths:"] ++
      insights.strengths.map (fun item => "- " ++ item) ++
      ["", "Students needing attention:"] ++
      (if insights.attentionNeeded.length > 0 then
        insights.attentionNeeded.map (fun item => "- " ++ item.name ++ ": " ++ item.reason)
      else ["- No students flagged for immediate attention."]) ++
      ["", "Next steps (next week):"] ++
      insights.nextSteps.map (fun item => "- " ++ item))

/-- The `preferences?.preferredStrategies ?? []` access used by both fallback
generators. -/
def prefStrategies : Option TeacherPreferences → List String
  | none => []
  | some pr => pr.preferredStrategies.getD []

/-- The `preferences?.classGoals?.[0]?.trim()` access of the student
fallback: the trimmed first class goal, when present. -/
def firstGoalTrimmed : Option TeacherPreferences → Option String
  | none => none
  | some pr =>
    match pr.classGoals with
    | none => none
    | some goals => goals.head?.map jsTrim

/-- The `forEach`/`push` loop that appends items while the list is below
`cap` elements. -/
def pushCapped (cap : Nat) (start items : List String) : List String :=
  items.foldl (fun acc item => if acc.length < cap then acc ++ [item] else acc) start

/-- The `while (strategies.length < 2) strategies.push(...)` loop of the
student fallback. -/
def padToTwo (l : List String) (g : String) : List String :=
  if l.length ≥ 2 then l
  else if l.length = 1 then l ++ [g]
  else [g, g]

/-- `buildFallbackStudentInsights` from `insights.ts`. -/
def buildFallbackStudentInsights (analysis : StudentAnalysis)
    (preferences : Option TeacherPreferences) : StudentInsights :=
  let strengths :=
    if analysis.strengths.length > 0 then analysis.strengths
    else ["You\u0027re making steady progress across your classes."]
  let improvementAreas :=
    if analysis.improvementAreas.length > 0 then analysis.improvementAreas.take 2
    else ["Keep building consistency with assignments and review routines."]
  let strategies0 : List String := []
  let strategies1 :=
    if analysis.metrics.assignmentCompletionRate < 85 then
      strategies0 ++ ["Use a checklist and finish assignments 24 hours before the deadline."]
    else strategies0
  let strategies2 :=
    if analysis.metrics.participationScore ≤ 6 then
      strategies1 ++ ["Prepare one question or comment before class and share it."]
    else strategies1
  let strategies3 :=
    if analysis.metrics.averageScore < 75 then
      strategies2 ++ ["Set a 20-minute daily review block and summarize notes in your own words."]
    else strategies2
  let strategies4 :=
    if analysis.metrics.lowestSubjects.length > 0 then
      strategies3 ++
        ["Spend extra practice time on " ++
          joinComma (analysis.metrics.lowestSubjects.map (fun grade => grade.subject)) ++
          " with short, focused sessions."]
    else strategies3
  let preferred := (prefStrategies preferences).filter (fun item => jsTrim item ≠ "")
  let strategies5 := pushCapped 3 strategies4 preferred
  let strategies6 :=
    padToTwo strategies5 "Ask for quick feedback from your teacher on one recent assignment."
  let goal :=
    match firstGoalTrimmed preferences with
    | some g =>
      if g = "" then "Choose one focus area and practice it three times this week." else g
    | none => "Choose one focus area and practice it three times this week."
  { positiveObservation := strengths.headD ""
    strengths := strengths.take 3
    improvementAreas := improvementAreas
    strategies := strategies6.take 3
    nextStepGoal := goal
    encouragement := "Small steps add up—keep going, and reach out if you need support." }

/-- Model of `Math.round` (round half toward positive infinity), used via
`x.toFixed(1)` and the analyzer's 2-decimal rounding.  `Rat.floor` is the
executable floor on rationals. -/
def jsRound (q : ℚ) : ℤ := Rat.floor (q + 1 / 2)

/-- Model of `Number.prototype.toFixed(1)` for the finite values the
summary's class average can take. -/
def toFixed1 (q : ℚ) : String :=
  let n := jsRound (q * 10)
  let a := n.natAbs
  (if n < 0 then "-" else "") ++ Nat.repr (a / 10) ++ "." ++ Nat.repr (a % 10)

/-- `buildFallbackTeacherInsights` from `insights.ts`. -/
def buildFallbackTeacherInsights (summary : TeacherSummary)
    (preferences : Option TeacherPreferences) : TeacherInsights :=
  let strengths :=
    if summary.topStudents.length > 0 then
      ["Top performers this cycle: " ++ joinComma summary.topStudents ++ "."]
    else ["Several students are maintaining steady performance."]
  let attentionNeeded :=
    summary.attentionNeeded.map
      (fun nm => AttentionEntry.mk nm "Flagged for additional check-ins based on recent trends.")
  let nextSteps0 := pushCapped 2 [] (prefStrategies preferences)
  let nextSteps1 :=
    if nextSteps0.length < 2 then
      nextSteps0 ++
        ["Plan one small-group session for students needing support.",
          "Highlight one success story to reinforce growth mindset."]
    else nextSteps0
  { classOverview :=
      "Class average is " ++ toFixed1 summary.classAverage ++
        ". Overall trends are stable with a few students needing additional attention."
    strengths := strengths
    attentionNeeded := attentionNeeded
    nextSteps := nextSteps1.take 4 }

/-! ## `src/analyzer.ts` -/

/-- `average` from `analyzer.ts`: arithmetic mean rounded to 2 decimals via
`Math.round(x * 100) / 100`; `0` for an empty list. -/
def average (scores : List ℚ) : ℚ :=
  if scores.length = 0 then 0
  else ((jsRound (scores.foldl (fun acc s => acc + s) 0 / (scores.length : ℚ) * 100) : ℚ)) / 100

/-- `topN` from `analyzer.ts`: stable sort of a copy, descending by score
(the JavaScript comparator `score(b) - score(a)`), then first `n`. -/
def topN {α : Type} (items : List α) (n : Nat) (score : α → ℚ) : List α :=
  (items.mergeSort (fun a b => decide (score b ≤ score a))).take n

/-- `bottomN` from `analyzer.ts`: stable sort of a copy, ascending by score
(comparator `score(a) - score(b)`), then first `n`. -/
def bottomN {α : Type} (items : List α) (n : Nat) (score : α → ℚ) : List α :=
  (items.mergeSort (fun a b => decide (score a ≤ score b))).take n

/-- `determineRisk` from `analyzer.ts`. -/
def determineRisk (metrics : StudentMetrics) (trend : PerformanceTrend) : RiskLevel :=
  if metrics.averageScore < 70 ∨ metrics.participationScore ≤ 4 ∨
      metrics.assignmentCompletionRate < 70 ∨ trend = PerformanceTrend.declining then
    RiskLevel.high
  else if metrics.averageScore < 80 ∨ metrics.participationScore ≤ 6 ∨
      metrics.assignmentCompletionRate < 85 then
    RiskLevel.medium
  else RiskLevel.low

/-- `analyzeStudent` from `analyzer.ts`. -/
def analyzeStudent (student : Student) : StudentAnalysis :=
  let averageScore := average (student.grades.map (fun grade => grade.score))
  let highestSubjects := topN student.grades 2 (fun grade => grade.score)
  let lowestSubjects := bottomN student.grades 2 (fun grade => grade.score)
  let metrics : StudentMetrics :=
    { averageScore := averageScore
      highestSubjects := highestSubjects
      lowestSubjects := lowestSubjects
      participationScore := student.participationScore
      assignmentCompletionRate := student.assignmentCompletionRate
      needsAttention :=
        decide (averageScore < 75) || decide (student.assignmentCompletionRate < 80) ||
          decide (student.performanceTrend = PerformanceTrend.declining) }
  let strengths :=
    (if averageScore ≥ 85 then ["Strong overall academic performance"] else []) ++
    (if student.participationScore ≥ 8 then ["Consistent class participation"] else []) ++
    (if student.assignmentCompletionRate ≥ 90 then ["High assignment completion rate"] else []) ++
    (if student.performanceTrend = PerformanceTrend.improving then
      ["Recent performance trend is improving"] else [])
  let improvementAreas :=
    (if averageScore < 75 then ["Overall grade average needs improvement"] else []) ++
    (if student.participationScore ≤ 6 then ["Increase class participation"] else []) ++
    (if student.assignmentCompletionRate < 85 then ["Improve assignment completion rate"] else []) ++
    (if student.performanceTrend = PerformanceTrend.declining then
      ["Address recent performance decline"] else []) ++
    (if lowestSubjects.length > 0 then
      ["Focus on weaker subjects: " ++ joinComma (lowestSubjects.map (fun grade => grade.subject))]
    else [])
  { student := student
    metrics := metrics
    strengths := strengths
    improvementAreas := improvementAreas
    riskLevel := determineRisk metrics student.performanceTrend }

/-! ## `src/validator.ts`

`Date.parse` is a platform service, so `validateStudent` takes an explicit
oracle `dateOk : String → Bool` deciding which strings parse as dates. -/

/-- `isRecord` from `validator.ts`: a plain object (not `null`, not an
array). -/
def isRecord : Json → Bool
  | Json.obj _ => true
  | _ => false

/-- `isNonEmptyString` from `validator.ts`, applied to a possibly-missing
property. -/
def isNonEmptyStringV : Option Json → Bool
  | some (Json.str s) => (jsTrim s).length > 0
  | _ => false

/-- The `isNonEmptyString(x) ? x.trim() : ""` normalization. -/
def trimmedOrEmpty (v : Option Json) : String :=
  match v with
  | some (Json.str s) => if (jsTrim s).length > 0 then jsTrim s else ""
  | _ => ""

/-- The `isFiniteNumber(x) ? x : 0` normalization (model numbers are always
finite). -/
def numValD : Option Json → ℚ
  | some (Json.num q) => q
  | _ => 0

/-- `inRange` from `validator.ts`. -/
def inRangeV (v : Option Json) (lo hi : ℚ) : Bool :=
  match v with
  | some (Json.num q) => decide (lo ≤ q) && decide (q ≤ hi)
  | _ => false

/-- `parseTrend` from `validator.ts`. -/
def parseTrendV : Option Json → Option PerformanceTrend
  | some (Json.str s) =>
    if s = "improving" then some PerformanceTrend.improving
    else if s = "stable" then some PerformanceTrend.stable
    else if s = "declining" then some PerformanceTrend.declining
    else none
  | _ => none

/-- The raw string of a string-valued property (`""` otherwise); used where
the source tests the untrimmed value. -/
def rawStrV : Option Json → String
  | some (Json.str s) => s
  | _ => ""

/-- Model of `EMAIL_PATTERN.test`, the anchored regex
`[^@\s]+@[^@\s]+\.[^@\s]+`: some decomposition `a@b.c` with `a`, `b`, `c`
non-empty and free of `@` and whitespace. -/
def emailPatternTest (s : String) : Bool :=
  let cs := s.data
  let a := cs.takeWhile (fun c => c ≠ '@')
  match cs.drop a.length with
  | [] => false
  | _ :: t =>
    (!a.isEmpty) && a.all (fun c => !(jsWsChar c)) &&
      t.all (fun c => c ≠ '@' && !(jsWsChar c)) &&
      (List.range t.length).any
        (fun i => decide (1 ≤ i) && decide (i + 1 < t.length) && (t.getD i ' ' == '.'))

/-- `isValidDate` from `validator.ts`, with `Date.parse` as the oracle
`dateOk`. -/
def isValidDateV (dateOk : String → Bool) : Option Json → Bool
  | some (Json.str s) => ((jsTrim s).length > 0 : Bool) && dateOk s
  | _ => false

/-- `validateGrade` from `validator.ts`. -/
def validateGrade (value : Json) (index : Nat) : VRes Grade :=
  match value with
  | Json.obj fields =>
    let subject := getField fields "subject"
    let score := getField fields "score"
    let subjectValue := trimmedOrEmpty subject
    let scoreValue := numValD score
    let errors :=
      (if isNonEmptyStringV subject then []
        else ["grades[" ++ toString index ++ "].subject must be a non-empty string"]) ++
      (if inRangeV score 0 100 then []
        else ["grades[" ++ toString index ++ "].score must be a number between 0 and 100"])
    if errors.length > 0 then VRes.err errors
    else VRes.ok { subject := subjectValue, score := scoreValue }
  | _ => VRes.err ["grades[" ++ toString index ++ "] must be an object"]

/-- The grade-array validation block of `validateStudent`: the validated
grades and the accumulated grade errors. -/
def studentGradesRes (grades : Option Json) : List Grade × List String :=
  match grades with
  | some (Json.arr gs) =>
    if gs.length = 0 then ([], ["grades must be a non-empty array"])
    else
      gs.enum.foldl
        (fun acc p =>
          match validateGrade p.2 p.1 with
          | VRes.ok g => (acc.1 ++ [g], acc.2)
          | VRes.err es => (acc.1, acc.2 ++ es))
        ([], [])
  | _ => ([], ["grades must be a non-empty array"])

/-- The `errors` list accumulated by `validateStudent` over an object's
fields, in source push order. -/
def studentFieldErrors (dateOk : String → Bool) (fields : List (String × Json)) : List String :=
  (if isNonEmptyStringV (getField fields "id") then [] else ["id must be a non-empty string"]) ++
  (if isNonEmptyStringV (getField fields "name") then []
    else ["name must be a non-empty string"]) ++
  (if isNonEmptyStringV (getField fields "email") &&
      emailPatternTest (rawStrV (getField fields "email")) then []
    else ["email must be a valid address"]) ++
  (studentGradesRes (getField fields "grades")).2 ++
  (if inRangeV (getField fields "participationScore") 1 10 then []
    else ["participationScore must be a number between 1 and 10"]) ++
  (if inRangeV (getField fields "assignmentCompletionRate") 0 100 then []
    else ["assignmentCompletionRate must be a number between 0 and 100"]) ++
  (if (match getField fields "teacherNotes" with | some (Json.str _) => true | _ => false) then []
    else ["teacherNotes must be a string"]) ++
  (if (parseTrendV (getField fields "performanceTrend")).isSome then []
    else ["performanceTrend must be improving, stable, or declining"]) ++
  (if isValidDateV dateOk (getField fields "lastAssessmentDate") then []
    else ["lastAssessmentDate must be a valid date string"])

/-- The normalized `Student` built by `validateStudent` when no error was
collected. -/
def studentNormalized (dateOk : String → Bool) (fields : List (String × Json)) : Student :=
  { id := trimmedOrEmpty (getField fields "id")
    name := trimmedOrEmpty (getField fields "name")
    email := trimmedOrEmpty (getField fields "email")
    grades := (studentGradesRes (getField fields "grades")).1
    participationScore := numValD (getField fields "participationScore")
    assignmentCompletionRate := numValD (getField fields "assignmentCompletionRate")
    teacherNotes := rawStrV (getField fields "teacherNotes")
    performanceTrend := (parseTrendV (getField fields "performanceTrend")).getD PerformanceTrend.stable
    lastAssessmentDate :=
      if isValidDateV dateOk (getField fields "lastAssessmentDate") then
        rawStrV (getField fields "lastAssessmentDate")
      else "" }

/-- `validateStudent` from `validator.ts`: collect every field violation,
then return either all errors or the normalized `Student`. -/
def validateStudent (dateOk : String → Bool) (value : Json) (index : Nat) : VRes Student :=
  match value with
  | Json.obj fields =>
    if (studentFieldErrors dateOk fields).length > 0 then
      VRes.err (studentFieldErrors dateOk fields)
    else VRes.ok (studentNormalized dateOk fields)
  | _ => VRes.err ["students[" ++ toString index ++ "] must be an object"]

/-- The `forEach` loop of `validateStudents`, carrying the element index. -/
def validateStudentsGo (dateOk : String → Bool) : Nat → List Json → List Student × List String
  | _, [] => ([], [])
  | i, v :: vs =>
    let rest := validateStudentsGo dateOk (i + 1) vs
    match validateStudent dateOk v i with
    | VRes.ok st => (st :: rest.1, rest.2)
    | VRes.err es => (rest.1, es.map (fun e => "students[" ++ toString i ++ "]: " ++ e) ++ rest.2)

/-- `validateStudents` from `validator.ts`. -/
def validateStudents (dateOk : String → Bool) (data : Json) : List Student × List String :=
  match data with
  | Json.arr items => validateStudentsGo dateOk 0 items
  | _ => ([], ["students.json must be an array of student objects"])

/-! ## The orchestration step (`main.ts`, `runOnce`) -/

/-- The per-student insight step of `runOnce` (main.ts lines 292–311): parse
the raw provider text, fall back to the deterministic generator on any
validation failure, then render.  Total by construction. -/
def studentMessageFor (analysis : StudentAnalysis) (prefs : Option TeacherPreferences)
    (rawInsights : String) : String :=
  let parsed := parseStudentInsights rawInsights
  let insights :=
    match parsed with
    | VRes.ok v => v
    | VRes.err _ => buildFallbackStudentInsights analysis prefs
  renderStudentMessage insights

/-! ## Helper lemmas -/

set_option maxRecDepth 40000

theorem joinLines_cons_cons (a b : String) (t : List String) :
    joinLines (a :: b :: t) = a ++ "\n" ++ joinLines (b :: t) := rfl

theorem length_pos_of_cons_cons (a b : String) (t : List String) :
    0 < (joinLines (a :: b :: t)).length := by
  rw [joinLines_cons_cons, String.length_append, String.length_append]
  have : 0 < ("\n").length := by decide
  omega

theorem ne_empty_of_length_pos {s : String} (h : 0 < s.length) : s ≠ "" := by
  intro he
  subst he
  simp at h

theorem renderStudentMessage_ne_empty (ins : StudentInsights) :
    renderStudentMessage ins ≠ "" := by
  apply ne_empty_of_length_pos
  apply length_pos_of_cons_cons

theorem renderTeacherMessage_ne_empty (ins : TeacherInsights) :
    renderTeacherMessage ins ≠ "" := by
  apply ne_empty_of_length_pos
  apply length_pos_of_cons_cons

/-- The example metrics of the risk-boundary test (average 70, participation
5, completion 60). -/
def boundaryMetrics : StudentMetrics :=
  { averageScore := 70
    highestSubjects := []
    lowestSubjects := []
    participationScore := 5
    assignmentCompletionRate := 60
    needsAttention := true }

/-- Claim C6: `determineRisk` classifies high iff average < 70, or
participation ≤ 4, or completion < 70, or declining trend; otherwise medium
iff average < 80, or participation ≤ 6, or completion < 85; otherwise low;
`analyzeStudent` assigns exactly this risk level; and the boundary entity
(average 70, participation 5, completion 60, declining) is high risk. -/
theorem determineRisk_classification :
    (∀ m t, determineRisk m t = RiskLevel.high ↔
      (m.averageScore < 70 ∨ m.participationScore ≤ 4 ∨
        m.assignmentCompletionRate < 70 ∨ t = PerformanceTrend.declining)) ∧
    (∀ m t, determineRisk m t = RiskLevel.medium ↔
      (¬(m.averageScore < 70 ∨ m.participationScore ≤ 4 ∨
          m.assignmentCompletionRate < 70 ∨ t = PerformanceTrend.declining) ∧
        (m.averageScore < 80 ∨ m.participationScore ≤ 6 ∨
          m.assignmentCompletionRate < 85))) ∧
    (∀ m t, determineRisk m t = RiskLevel.low ↔
      (¬(m.averageScore < 70 ∨ m.participationScore ≤ 4 ∨
          m.assignmentCompletionRate < 70 ∨ t = PerformanceTrend.declining) ∧
        ¬(m.averageScore < 80 ∨ m.participationScore ≤ 6 ∨
          m.assignmentCompletionRate < 85))) ∧
    (∀ s : Student,
      (analyzeStudent s).riskLevel =
        determineRisk (analyzeStudent s).metrics s.performanceTrend) ∧
    determineRisk boundaryMetrics PerformanceTrend.declining = RiskLevel.high := by
  refine ⟨?_, ?_, ?_, ?_, by decide⟩
  · intro m t
    unfold determineRisk
    split_ifs with h1 h2 <;> simp_all
  · intro m t
    unfold determineRisk
    split_ifs with h1 h2 <;> simp_all
  · intro m t
    unfold determineRisk
    split_ifs with h1 h2 <;> simp_all
  · intro s
    rfl

/-- Claim C9: the per-student pipeline step — parse the raw provider text,
fall back to the deterministic generator on failure, render — is total and
always produces a non-empty message, either from the validated provider
payload or from the fallback. -/
theorem studentMessage_always_produced :
    ∀ (a : StudentAnalysis) (p : Option TeacherPreferences) (r : String),
      studentMessageFor a p r ≠ "" ∧
      (studentMessageFor a p r = renderStudentMessage (buildFallbackStudentInsights a p) ∨
        ∃ v, parseStudentInsights r = VRes.ok v ∧
          studentMessageFor a p r = renderStudentMessage v) := by
  intro a p r
  constructor
  · unfold studentMessageFor
    cases parseStudentInsights r <;> exact renderStudentMessage_ne_empty _
  · unfold studentMessageFor
    cases hp : parseStudentInsights r with
    | ok v => exact Or.inr ⟨v, rfl, rfl⟩
    | err es => exact Or.inl rfl

/-- Claim C10: `renderTeacherMessage` always yields non-empty text with the
fixed section order, and an empty `attentionNeeded` list renders as the
placeholder bullet rather than omitting the section. -/
theorem renderTeacherMessage_sections :
    ∀ ins : TeacherInsights,
      renderTeacherMessage ins ≠ "" ∧
      (ins.attentionNeeded = [] →
        renderTeacherMessage ins =
          joinLines ([ins.classOverview, "", "Class strengths:"] ++
            ins.strengths.map (fun item => "- " ++ item) ++
            ["", "Students needing attention:",
              "- No students flagged for immediate attention.",
              "", "Next steps (next week):"] ++
            ins.nextSteps.map (fun item => "- " ++ item))) := by
  intro ins
  refine ⟨renderTeacherMessage_ne_empty ins, ?_⟩
  intro hemp
  unfold renderTeacherMessage
  rw [hemp]
  simp

/-- A concrete teacher insight with no flagged students, for the rendering
witness. -/
def emptyAttentionInsights : TeacherInsights :=
  { classOverview := "The class is steady overall."
    strengths := ["Strong engagement"]
    attentionNeeded := []
    nextSteps := ["Review fractions", "Praise effort"] }

/-- Witness for claim C10 at a concrete insight with no flagged students. -/
theorem renderTeacherMessage_sections_witness :
    renderTeacherMessage emptyAttentionInsights ≠ "" ∧
    renderTeacherMessage emptyAttentionInsights =
      joinLines ([emptyAttentionInsights.classOverview, "", "Class strengths:"] ++
        emptyAttentionInsights.strengths.map (fun item => "- " ++ item) ++
        ["", "Students needing attention:",
          "- No students flagged for immediate attention.",
          "", "Next steps (next week):"] ++
        emptyAttentionInsights.nextSteps.map (fun item => "- " ++ item)) := by
  have h := renderTeacherMessage_sections emptyAttentionInsights
  exact ⟨h.1, h.2 rfl⟩

/-- Claim C4: the fallback generators are pure functions of their arguments
(equal inputs give identical outputs), and the rejected raw provider text is
not an input at all — through the whole pipeline step, two runs with
different rejected raw responses produce the same rendered message. -/
theorem fallback_purity :
    (∀ (a₁ a₂ : StudentAnalysis) (p₁ p₂ : Option TeacherPreferences),
      a₁ = a₂ → p₁ = p₂ →
      buildFallbackStudentInsights a₁ p₁ = buildFallbackStudentInsights a₂ p₂) ∧
    (∀ (s₁ s₂ : TeacherSummary) (p₁ p₂ : Option TeacherPreferences),
      s₁ = s₂ → p₁ = p₂ →
      buildFallbackTeacherInsights s₁ p₁ = buildFallbackTeacherInsights s₂ p₂) ∧
    (∀ (a : StudentAnalysis) (p : Option TeacherPreferences) (r₁ r₂ : String),
      (parseStudentInsights r₁).isOk = false → (parseStudentInsights r₂).isOk = false →
      studentMessageFor a p r₁ = studentMessageFor a p r₂) := by
  refine ⟨?_, ?_, ?_⟩
  · intro a₁ a₂ p₁ p₂ ha hp
    rw [ha, hp]
  · intro s₁ s₂ p₁ p₂ hs hp
    rw [hs, hp]
  · intro a p r₁ r₂ h1 h2
    unfold studentMessageFor
    cases hp1 : parseStudentInsights r₁ with
    | ok v => rw [hp1] at h1; simp [VRes.isOk] at h1
    | err es =>
      cases hp2 : parseStudentInsights r₂ with
      | ok v => rw [hp2] at h2; simp [VRes.isOk] at h2
      | err es2 => rfl

/-- A concrete analysis used by the purity witness. -/
def witnessAnalysis : StudentAnalysis :=
  { student :=
      { id := "S9"
        name := "W"
        email := "w@e.io"
        grades := [{ subject := "Math", score := 80 }]
        participationScore := 7
        assignmentCompletionRate := 90
        teacherNotes := ""
        performanceTrend := PerformanceTrend.stable
        lastAssessmentDate := "2024-09-01" }
    metrics :=
      { averageScore := 80
        highestSubjects := [{ subject := "Math", score := 80 }]
        lowestSubjects := [{ subject := "Math", score := 80 }]
        participationScore := 7
        assignmentCompletionRate := 90
        needsAttention := false }
    strengths := ["High assignment completion rate"]
    improvementAreas := []
    riskLevel := RiskLevel.medium }

/-- Witness for claim C4: two different rejected raw responses yield the
same rendered message. -/
theorem fallback_purity_witness :
    studentMessageFor witnessAnalysis none "The model refused to answer." =
      studentMessageFor witnessAnalysis none "garbage \x7d\x7b output" :=
  fallback_purity.2.2 witnessAnalysis none "The model refused to answer."
    "garbage \x7d\x7b output" (by rfl) (by rfl)

theorem firstIdx_eq_none_of_not_mem (c : Char) :
    ∀ l : List Char, c ∉ l → firstIdx c l = none := by
  intro l
  induction l with
  | nil => intro _; rfl
  | cons x xs ih =>
    intro h
    unfold firstIdx
    rw [if_neg (fun hx => h (by rw [← hx]; exact List.mem_cons_self x xs))]
    rw [ih (fun hm => h (List.mem_cons_of_mem x hm))]
    rfl

theorem lastIdx_eq_none_of_not_mem (c : Char) :
    ∀ l : List Char, c ∉ l → lastIdx c l = none := by
  intro l
  induction l with
  | nil => intro _; rfl
  | cons x xs ih =>
    intro h
    unfold lastIdx
    rw [ih (fun hm => h (List.mem_cons_of_mem x hm))]
    rw [if_neg (fun hx => h (by rw [← hx]; exact List.mem_cons_self x xs))]

theorem firstIdx_eq_some_of (c : Char) :
    ∀ (l : List Char) (i : Nat), l.get? i = some c →
      (∀ k < i, l.get? k ≠ some c) → firstIdx c l = some i := by
  intro l
  induction l with
  | nil => intro i h _; simp at h
  | cons x xs ih =>
    intro i h hmin
    cases i with
    | zero =>
      simp at h
      unfold firstIdx
      rw [if_pos h]
    | succ n =>
      have hx : x ≠ c := by
        intro hx
        exact hmin 0 (Nat.succ_pos n) (by simp [hx])
      unfold firstIdx
      rw [if_neg hx]
      rw [ih n (by simpa using h) (fun k hk => by
        have := hmin (k + 1) (by omega)
        simpa using this)]
      rfl

theorem lastIdx_eq_none_of_get? (c : Char) :
    ∀ l : List Char, (∀ m < l.length, l.get? m ≠ some c) → lastIdx c l = none := by
  intro l h
  apply lastIdx_eq_none_of_not_mem
  intro hm
  obtain ⟨n, hn⟩ := List.mem_iff_get?.mp hm
  have hlt : n < l.length := (List.get?_eq_some.mp hn).1
  exact h n hlt hn

theorem lastIdx_eq_some_of (c : Char) :
    ∀ (l : List Char) (j : Nat), l.get? j = some c →
      (∀ k < l.length, j < k → l.get? k ≠ some c) → lastIdx c l = some j := by
  intro l
  induction l with
  | nil => intro j h _; simp at h
  | cons x xs ih =>
    intro j h hmax
    cases j with
    | zero =>
      simp at h
      have hnone : lastIdx c xs = none := by
        apply lastIdx_eq_none_of_get?
        intro m hm
        have := hmax (m + 1) (by simpa using Nat.succ_lt_succ hm) (Nat.succ_pos m)
        simpa using this
      unfold lastIdx
      rw [hnone, if_pos h]
    | succ n =>
      have hxs : lastIdx c xs = some n := by
        apply ih n (by simpa using h)
        intro k hk hnk
        have := hmax (k + 1) (by simpa using Nat.succ_lt_succ hk) (by omega)
        simpa using this
      unfold lastIdx
      rw [hxs]

/-- The repository test's wrapper-prose raw text: conversational text around
one well-formed student insight object. -/
def wrapperProseRaw : String :=
  "Here is the JSON:\n\x7b \"positiveObservation\": \"You showed steady effort this week.\", \"strengths\": [\"Consistent participation\"], \"improvementAreas\": [\"Assignment organization\"], \"strategies\": [\"Use a checklist\", \"Review notes for 15 minutes nightly\"], \"nextStepGoal\": \"Complete all assignments on time this week.\", \"encouragement\": \"Small steps add up.\" \x7d\nThanks!"

/-- Claim C5: `extractJsonObject` returns the span from the first `{` to the
last `}` inclusive whenever both exist with the `}` strictly after the `{`,
and fails otherwise; text without the braces fails; wrapper prose around one
well-formed object extracts a span that parses (and validates)
successfully. -/
theorem extractJsonObject_spec :
    (∀ t : String, ('\x7b' ∉ t.data ∨ '\x7d' ∉ t.data) → extractJsonObject t = none) ∧
    (∀ (t : String) (i j : Nat),
      t.data.get? i = some '\x7b' →
      (∀ k < i, t.data.get? k ≠ some '\x7b') →
      t.data.get? j = some '\x7d' →
      (∀ k < t.data.length, j < k → t.data.get? k ≠ some '\x7d') →
      (j ≤ i → extractJsonObject t = none) ∧
      (i < j →
        extractJsonObject t = some (String.mk ((t.data.drop i).take (j - i + 1))))) ∧
    (parseStudentInsights wrapperProseRaw).isOk = true ∧
    extractJsonObject "Thanks, I could not produce structured output." = none := by
  refine ⟨?_, ?_, by rfl, by rfl⟩
  · intro t h
    unfold extractJsonObject
    cases h with
    | inl h =>
      rw [firstIdx_eq_none_of_not_mem _ _ h]
    | inr h =>
      rw [lastIdx_eq_none_of_not_mem _ _ h]
      cases firstIdx '\x7b' t.data <;> rfl
  · intro t i j h1 h2 h3 h4
    have hf := firstIdx_eq_some_of _ _ _ h1 h2
    have hl := lastIdx_eq_some_of _ _ _ h3 h4
    refine ⟨fun hji => ?_, fun hij => ?_⟩
    · simp [extractJsonObject, hf, hl, hji]
    · simp [extractJsonObject, hf, hl, Nat.not_le.mpr hij]

/-- Witness for claim C5: extraction at a concrete wrapper text and at a
concrete text whose last `}` precedes its first `{`. -/
theorem extractJsonObject_spec_witness :
    extractJsonObject "see: \x7b\"a\": 1\x7d ok" = some "\x7b\"a\": 1\x7d" ∧
    extractJsonObject "mismatch \x7d then \x7b" = none := by
  constructor
  · have h := extractJsonObject_spec.2.1 "see: \x7b\"a\": 1\x7d ok" 5 12
      (by decide) (by decide) (by decide) (by decide)
    exact (h.2 (by decide)).trans (by decide)
  · have h := extractJsonObject_spec.2.1 "mismatch \x7d then \x7b" 16 9
      (by decide) (by decide) (by decide) (by decide)
    exact h.1 (by decide)

/-- Claim C1 (code bug): at a raw payload whose parsed object has several
invalid fields including an invalid array field — here `strengths` is a
number and every other field is missing — `parseStudentInsights` returns the
single generic error `"Invalid student insights payload"`: the early return
on the array-field results discards the per-field errors (including the
`positiveObservation` error established by the other two conjuncts), even
though the code below it (dead code) would collect them, and even though
`parseTeacherInsights` does collect all field errors. -/
theorem parseStudentInsights_short_circuits :
    parseStudentInsights "\x7b\"strengths\": 5\x7d" =
      VRes.err ["Invalid student insights payload"] ∧
    safeString (getField [("strengths", Json.num 5)] "positiveObservation") 220 = none ∧
    normalizeStringArray (getField [("strengths", Json.num 5)] "strengths") 1 3 "strengths" =
      VRes.err ["strengths must be an array"] := by
  refine ⟨by rfl, by rfl, by rfl⟩

/-- Model of `Array.isArray`. -/
def jsIsArray : Json → Bool
  | Json.arr _ => true
  | _ => false

theorem validateStudent_err_nonempty (dateOk : String → Bool) (v : Json) (i : Nat) :
    ∀ es, validateStudent dateOk v i = VRes.err es → es ≠ [] := by
  intro es h
  cases v with
  | obj fields =>
    simp only [validateStudent] at h
    by_cases hE : (studentFieldErrors dateOk fields).length > 0
    · rw [if_pos hE] at h
      injection h with h'
      intro hnil
      rw [h', hnil] at hE
      simp at hE
    · rw [if_neg hE] at h
      exact absurd h (by simp)
  | null => injection h with h'; rw [← h']; simp
  | bool b => injection h with h'; rw [← h']; simp
  | num q => injection h with h'; rw [← h']; simp
  | str s => injection h with h'; rw [← h']; simp
  | arr l => injection h with h'; rw [← h']; simp

/-- The per-index error tag `students[i]: ` applied by `validateStudents`. -/
def tagIdx (i : Nat) (e : String) : String :=
  "students[" ++ toString i ++ "]: " ++ e

theorem validateStudentsGo_spec (dateOk : String → Bool) :
    ∀ (items : List Json) (start : Nat),
      (validateStudentsGo dateOk start items).1 =
        (items.enumFrom start).filterMap
          (fun p => match validateStudent dateOk p.2 p.1 with
            | VRes.ok st => some st
            | VRes.err _ => none) ∧
      (validateStudentsGo dateOk start items).2 =
        (items.enumFrom start).flatMap
          (fun p => match validateStudent dateOk p.2 p.1 with
            | VRes.ok _ => []
            | VRes.err es => es.map (tagIdx p.1)) ∧
      (validateStudentsGo dateOk start items).1.length +
        ((items.enumFrom start).filter
          (fun p => !(validateStudent dateOk p.2 p.1).isOk)).length = items.length := by
  intro items
  induction items with
  | nil => intro start; refine ⟨rfl, rfl, rfl⟩
  | cons v vs ih =>
    intro start
    obtain ⟨ih1, ih2, ih3⟩ := ih (start + 1)
    unfold validateStudentsGo
    cases hv : validateStudent dateOk v start with
    | ok st =>
      have hnot : (!(validateStudent dateOk v start).isOk) = false := by
        rw [hv]; rfl
      refine ⟨?_, ?_, ?_⟩
      · simp [List.enumFrom, hv, ih1]
      · simp [List.enumFrom, hv, ih2]
      · simp only [List.enumFrom, List.filter_cons, hnot, Bool.false_eq_true, if_false,
          List.length_cons]
        omega
    | err es =>
      have hnot : (!(validateStudent dateOk v start).isOk) = true := by
        rw [hv]; rfl
      refine ⟨?_, ?_, ?_⟩
      · simp [List.enumFrom, hv, ih1]
      · simp [List.enumFrom, hv, ih2, tagIdx]
      · simp only [List.enumFrom, List.filter_cons, hnot, if_true, List.length_cons]
        omega

/-- Claim C7: a non-sequence input yields an empty valid list and exactly
one top-level error; for a sequence, each element contributes exactly one
validated student (and no error) or at least one index-tagged error (and no
student), so the number of valid students plus the number of elements with
at least one error equals the input length. -/
theorem validateStudents_partition (dateOk : String → Bool) :
    (∀ data : Json, jsIsArray data = false →
      validateStudents dateOk data =
        ([], ["students.json must be an array of student objects"])) ∧
    (∀ items : List Json,
      (validateStudents dateOk (Json.arr items)).1 =
        items.enum.filterMap
          (fun p => match validateStudent dateOk p.2 p.1 with
            | VRes.ok st => some st
            | VRes.err _ => none) ∧
      (validateStudents dateOk (Json.arr items)).2 =
        items.enum.flatMap
          (fun p => match validateStudent dateOk p.2 p.1 with
            | VRes.ok _ => []
            | VRes.err es => es.map (tagIdx p.1)) ∧
      (validateStudents dateOk (Json.arr items)).1.length +
        (items.enum.filter
          (fun p => !(validateStudent dateOk p.2 p.1).isOk)).length = items.length ∧
      (∀ p ∈ items.enum, ∀ es, validateStudent dateOk p.2 p.1 = VRes.err es → es ≠ [])) := by
  constructor
  · intro data hdata
    cases data <;> first | rfl | simp [jsIsArray] at hdata
  · intro items
    obtain ⟨h1, h2, h3⟩ := validateStudentsGo_spec dateOk items 0
    exact ⟨h1, h2, h3, fun p _ => validateStudent_err_nonempty dateOk p.2 p.1⟩

/-- Witness for claim C7: a non-array input, and a two-element batch with
one valid and one invalid record. -/
theorem validateStudents_partition_witness :
    validateStudents (fun _ => true) (Json.str "nope") =
      ([], ["students.json must be an array of student objects"]) ∧
    (validateStudents (fun _ => true) (Json.arr [Json.num 3])).1.length +
      (([(0, Json.num 3)] : List (Nat × Json)).filter
        (fun p => !(validateStudent (fun _ => true) p.2 p.1).isOk)).length = 1 := by
  constructor
  · exact (validateStudents_partition (fun _ => true)).1 (Json.str "nope") (by rfl)
  · exact ((validateStudents_partition (fun _ => true)).2 [Json.num 3]).2.2.1

theorem pushCapped_cons (cap : Nat) (start : List String) (i : String) (is : List String) :
    pushCapped cap start (i :: is) =
      pushCapped cap (if start.length < cap then start ++ [i] else start) is := rfl

theorem pushCapped_eq_append (cap : Nat) :
    ∀ (items start : List String),
      ∃ t, pushCapped cap start items = start ++ t ∧ ∀ x ∈ t, x ∈ items := by
  intro items
  induction items with
  | nil =>
    intro start
    exact ⟨[], by simp [pushCapped], by simp⟩
  | cons i is ih =>
    intro start
    rw [pushCapped_cons]
    by_cases h : start.length < cap
    · rw [if_pos h]
      obtain ⟨t, ht, hmem⟩ := ih (start ++ [i])
      refine ⟨i :: t, ?_, ?_⟩
      · rw [ht, List.append_assoc]
        rfl
      · intro x hx
        rcases List.mem_cons.mp hx with hx | hx
        · exact hx ▸ List.mem_cons_self i is
        · exact List.mem_cons_of_mem i (hmem x hx)
    · rw [if_neg h]
      obtain ⟨t, ht, hmem⟩ := ih start
      exact ⟨t, ht, fun x hx => List.mem_cons_of_mem i (hmem x hx)⟩

theorem padToTwo_cases (l : List String) (g : String) :
    padToTwo l g = l ∨ padToTwo l g = l ++ [g] ∨ (l = [] ∧ padToTwo l g = [g, g]) := by
  unfold padToTwo
  split_ifs with h1 h2
  · exact Or.inl rfl
  · exact Or.inr (Or.inl rfl)
  · have hl : l = [] := by
      cases l with
      | nil => rfl
      | cons a t =>
        exfalso
        simp only [List.length_cons, ge_iff_le, not_le] at h1
        simp only [List.length_cons] at h2
        omega
    exact Or.inr (Or.inr ⟨hl, rfl⟩)

theorem mem_padToTwo (l : List String) (g x : String) (h : x ∈ padToTwo l g) :
    x ∈ l ∨ x = g := by
  rcases padToTwo_cases l g with he | he | ⟨_, he⟩ <;> rw [he] at h
  · exact Or.inl h
  · rcases List.mem_append.mp h with h | h
    · exact Or.inl h
    · simp at h; exact Or.inr h
  · simp at h; exact Or.inr h

theorem padToTwo_length (l : List String) (g : String) : 2 ≤ (padToTwo l g).length := by
  unfold padToTwo
  split_ifs with h1 h2 <;> simp_all

theorem mem_take_three (p q : List String) (x : String) (hp : p.length ≤ 2) :
    x ∈ (p ++ x :: q).take 3 := by
  match p, hp with
  | [], _ => simp
  | [a], _ => simp
  | [a, b], _ => simp

theorem tip_mem_core (x : String) (s2 q pref : List String) (g : String)
    (hs2 : s2.length ≤ 2) :
    x ∈ (padToTwo (pushCapped 3 ((s2 ++ [x]) ++ q) pref) g).take 3 := by
  obtain ⟨t, ht, _⟩ := pushCapped_eq_append 3 pref ((s2 ++ [x]) ++ q)
  have hform : pushCapped 3 ((s2 ++ [x]) ++ q) pref = s2 ++ x :: (q ++ t) := by
    rw [ht]
    simp [List.append_assoc]
  rcases padToTwo_cases (pushCapped 3 ((s2 ++ [x]) ++ q) pref) g with he | he | ⟨hnil, _⟩
  · rw [he, hform]
    exact mem_take_three s2 (q ++ t) x hs2
  · rw [he, hform, List.append_assoc]
    exact mem_take_three s2 (q ++ t ++ [g]) x (by simpa using hs2)
  · rw [hform] at hnil
    simp at hnil

theorem tip_not_mem_core (x : String) (s4 pref : List String) (g : String)
    (h4 : x ∉ s4) (hpref : x ∉ pref) (hg : x ≠ g) :
    x ∉ (padToTwo (pushCapped 3 s4 pref) g).take 3 := by
  intro hmem
  have h1 : x ∈ padToTwo (pushCapped 3 s4 pref) g := List.take_subset 3 _ hmem
  rcases mem_padToTwo _ _ _ h1 with h2 | h2
  · obtain ⟨t, ht, htmem⟩ := pushCapped_eq_append 3 pref s4
    rw [ht] at h2
    rcases List.mem_append.mp h2 with h3 | h3
    · exact h4 h3
    · exact hpref (htmem x h3)
  · exact hg h2

/-- The study-routine tip of the fallback strategy ladder. -/
def studyRoutineTip : String :=
  "Set a 20-minute daily review block and summarize notes in your own words."

theorem subjectsTip_ne_studyTip (s : String) :
    "Spend extra practice time on " ++ s ++ " with short, focused sessions." ≠
      studyRoutineTip := by
  intro h
  have h2 := congrArg (fun t : String => t.data[1]?) h
  simp only [String.data_append] at h2
  rw [List.append_assoc] at h2
  rw [List.getElem?_append_left (by decide)] at h2
  exact absurd h2 (by decide)

theorem mem_ite_append {α : Type} (c : Prop) [Decidable c] (l : List α) (x y : α)
    (h : y ∈ (if c then l ++ [x] else l)) : y ∈ l ∨ y = x := by
  split_ifs at h
  · rcases List.mem_append.mp h with h | h
    · exact Or.inl h
    · simp at h; exact Or.inr h
  · exact Or.inl h

/-- A concrete analysis with average score 72 (participation 10, completion
100, no weak-subject list), as produced for a passing student with mid-C
grades. -/
def analysis72 : StudentAnalysis :=
  { student :=
      { id := "S1"
        name := "N"
        email := "n@e.io"
        grades := [{ subject := "Math", score := 72 }]
        participationScore := 10
        assignmentCompletionRate := 100
        teacherNotes := ""
        performanceTrend := PerformanceTrend.stable
        lastAssessmentDate := "2024-09-01" }
    metrics :=
      { averageScore := 72
        highestSubjects := []
        lowestSubjects := []
        participationScore := 10
        assignmentCompletionRate := 100
        needsAttention := true }
    strengths := ["Consistent class participation"]
    improvementAreas := ["Overall grade average needs improvement"]
    riskLevel := RiskLevel.medium }

/-- Claim C3 counterexample: at an analysis with averageScore 72 ∈ [70, 75)
the fallback strategies DO contain the study-routine tip, so the tip is not
governed by a 70 threshold. -/
theorem studyTip_present_at_average_72 :
    (70 ≤ analysis72.metrics.averageScore ∧ analysis72.metrics.averageScore < 75) ∧
    studyRoutineTip ∈ (buildFallbackStudentInsights analysis72 none).strategies := by
  refine ⟨⟨by decide, by decide⟩, ?_⟩
  decide

/-- Claim C3 amended: the study-routine tip is added exactly when
averageScore < 75 — the same threshold as improvementAreas, not a distinct
70 — provided the teacher-preferred strategies do not themselves contain the
tip text; in particular for averageScore ∈ [70, 75) the tip IS present. -/
theorem studyTip_iff_average_below_75 (analysis : StudentAnalysis)
    (prefs : Option TeacherPreferences)
    (hp : studyRoutineTip ∉ prefStrategies prefs) :
    studyRoutineTip ∈ (buildFallbackStudentInsights analysis prefs).strategies ↔
      analysis.metrics.averageScore < 75 := by
  constructor
  · intro hmem
    by_contra h75
    simp only [buildFallbackStudentInsights] at hmem
    rw [if_neg h75] at hmem
    revert hmem
    apply tip_not_mem_core
    · intro hx
      rcases mem_ite_append _ _ _ _ hx with hx | hx
      · rcases mem_ite_append _ _ _ _ hx with hx | hx
        · rcases mem_ite_append _ _ _ _ hx with hx | hx
          · simp at hx
          · exact absurd hx (by decide)
        · exact absurd hx (by decide)
      · exact subjectsTip_ne_studyTip _ hx.symm
    · intro hx
      exact hp (List.mem_filter.mp hx).1
    · decide
  · intro h75
    simp only [buildFallbackStudentInsights]
    rw [if_pos h75]
    have hs2 : ((if analysis.metrics.participationScore ≤ 6 then
        ((if analysis.metrics.assignmentCompletionRate < 85 then
            ([] : List String) ++
              ["Use a checklist and finish assignments 24 hours before the deadline."]
          else []) ++
          ["Prepare one question or comment before class and share it."])
      else
        (if analysis.metrics.assignmentCompletionRate < 85 then
            ([] : List String) ++
              ["Use a checklist and finish assignments 24 hours before the deadline."]
          else [])).length ≤ 2) := by
      split_ifs <;> simp
    by_cases hc4 : analysis.metrics.lowestSubjects.length > 0
    · rw [if_pos hc4]
      exact tip_mem_core _ _ _ _ _ hs2
    · rw [if_neg hc4]
      have h := tip_mem_core studyRoutineTip _ []
        ((prefStrategies prefs).filter (fun item => jsTrim item ≠ ""))
        "Ask for quick feedback from your teacher on one recent assignment." hs2
      simpa using h

/-- Witness for the amended claim C3 at the concrete 72-average analysis
with no preferences. -/
theorem studyTip_iff_average_below_75_witness :
    studyRoutineTip ∈ (buildFallbackStudentInsights analysis72 none).strategies ∧
    analysis72.metrics.averageScore < 75 :=
  ⟨(studyTip_iff_average_below_75 analysis72 none (by decide)).mpr (by decide), by decide⟩

theorem pair_get_sublist {α : Type} :
    ∀ (l : List α) (i j : Nat) (hij : i < j) (hj : j < l.length),
      List.Sublist [l.get ⟨i, Nat.lt_trans hij hj⟩, l.get ⟨j, hj⟩] l := by
  intro l
  induction l with
  | nil => intro i j hij hj; simp at hj
  | cons x xs ih =>
    intro i j hij hj
    cases i with
    | zero =>
      cases j with
      | zero => omega
      | succ m =>
        have hm : m < xs.length := by simpa using hj
        exact List.Sublist.cons₂ x (List.singleton_sublist.mpr (xs.get_mem m hm))
    | succ n =>
      cases j with
      | zero => omega
      | succ m =>
        have hm : m < xs.length := by simpa using hj
        have hnm : n < m := by omega
        have h2 := (ih n m hnm hm).cons x
        simpa using h2

/-- Claim C8: `topN`/`bottomN` stable-sort a copy of the grades (descending
and ascending by score) and take the first two, so grades with equal scores
keep their original relative order in both sorted sequences, and the input
grades are returned unchanged in the analysis. -/
theorem stable_sort_equal_scores (s : Student) (i j : Nat) (hij : i < j)
    (hj : j < s.grades.length)
    (heq : (s.grades.get ⟨i, Nat.lt_trans hij hj⟩).score = (s.grades.get ⟨j, hj⟩).score) :
    List.Sublist [s.grades.get ⟨i, Nat.lt_trans hij hj⟩, s.grades.get ⟨j, hj⟩]
        (s.grades.mergeSort (fun a b => decide (b.score ≤ a.score))) ∧
    List.Sublist [s.grades.get ⟨i, Nat.lt_trans hij hj⟩, s.grades.get ⟨j, hj⟩]
        (s.grades.mergeSort (fun a b => decide (a.score ≤ b.score))) ∧
    (analyzeStudent s).metrics.highestSubjects =
      (s.grades.mergeSort (fun a b => decide (b.score ≤ a.score))).take 2 ∧
    (analyzeStudent s).metrics.lowestSubjects =
      (s.grades.mergeSort (fun a b => decide (a.score ≤ b.score))).take 2 ∧
    (analyzeStudent s).student.grades = s.grades := by
  have hsub := pair_get_sublist s.grades i j hij hj
  refine ⟨?_, ?_, rfl, rfl, rfl⟩
  · apply List.pair_sublist_mergeSort
    · intro a b c hab hbc
      simp only [decide_eq_true_eq] at hab hbc ⊢
      exact le_trans hbc hab
    · intro a b
      simp only [Bool.or_eq_true, decide_eq_true_eq]
      exact le_total b.score a.score
    · simp only [decide_eq_true_eq]
      exact le_of_eq heq.symm
    · exact hsub
  · apply List.pair_sublist_mergeSort
    · intro a b c hab hbc
      simp only [decide_eq_true_eq] at hab hbc ⊢
      exact le_trans hab hbc
    · intro a b
      simp only [Bool.or_eq_true, decide_eq_true_eq]
      exact le_total a.score b.score
    · simp only [decide_eq_true_eq]
      exact le_of_eq heq
    · exact hsub

/-- A student whose two grades have equal scores, for the stability
witness. -/
def tieStudent : Student :=
  { id := "S2"
    name := "Tie"
    email := "t@e.io"
    grades := [{ subject := "Math", score := 80 }, { subject := "Art", score := 80 }]
    participationScore := 7
    assignmentCompletionRate := 90
    teacherNotes := ""
    performanceTrend := PerformanceTrend.stable
    lastAssessmentDate := "2024-09-01" }

/-- Witness for claim C8 at a student with two equal-score grades. -/
theorem stable_sort_equal_scores_witness :
    List.Sublist [tieStudent.grades.get ⟨0, by decide⟩, tieStudent.grades.get ⟨1, by decide⟩]
        (tieStudent.grades.mergeSort (fun a b => decide (b.score ≤ a.score))) ∧
    List.Sublist [tieStudent.grades.get ⟨0, by decide⟩, tieStudent.grades.get ⟨1, by decide⟩]
        (tieStudent.grades.mergeSort (fun a b => decide (a.score ≤ b.score))) ∧
    (analyzeStudent tieStudent).metrics.highestSubjects =
      (tieStudent.grades.mergeSort (fun a b => decide (b.score ≤ a.score))).take 2 ∧
    (analyzeStudent tieStudent).metrics.lowestSubjects =
      (tieStudent.grades.mergeSort (fun a b => decide (a.score ≤ b.score))).take 2 ∧
    (analyzeStudent tieStudent).student.grades = tieStudent.grades :=
  stable_sort_equal_scores tieStudent 0 1 (by decide) (by decide) (by decide)

theorem ratFloor_eq_floor (q : ℚ) : Rat.floor q = ⌊q⌋ := by
  rw [Rat.floor_def']
  rw [← Rat.floor_def]

theorem headD_mem_of_ne_nil {α : Type} (l : List α) (d : α) (h : l ≠ []) :
    l.headD d ∈ l := by
  cases l with
  | nil => exact absurd rfl h
  | cons a t => exact List.mem_cons_self a t

/-- The StudentInsight schema bounds of the spec (section 4.3): field
cardinalities, non-emptiness and length caps. -/
def studentSchemaOk (v : StudentInsights) : Prop :=
  (v.positiveObservation ≠ "" ∧ v.positiveObservation.length ≤ 220) ∧
  (1 ≤ v.strengths.length ∧ v.strengths.length ≤ 3) ∧
  (∀ e ∈ v.strengths, e ≠ "" ∧ e.length ≤ 180) ∧
  (1 ≤ v.improvementAreas.length ∧ v.improvementAreas.length ≤ 2) ∧
  (∀ e ∈ v.improvementAreas, e ≠ "" ∧ e.length ≤ 180) ∧
  (2 ≤ v.strategies.length ∧ v.strategies.length ≤ 3) ∧
  (∀ e ∈ v.strategies, e ≠ "" ∧ e.length ≤ 180) ∧
  (v.nextStepGoal ≠ "" ∧ v.nextStepGoal.length ≤ 200) ∧
  (v.encouragement ≠ "" ∧ v.encouragement.length ≤ 200)

/-- The TeacherInsight schema bounds named by the claim: classOverview cap
240, strengths 1–4, attentionNeeded name cap 80 and reason cap 160,
nextSteps 2–4. -/
def teacherSchemaOk (v : TeacherInsights) : Prop :=
  (v.classOverview ≠ "" ∧ v.classOverview.length ≤ 240) ∧
  (1 ≤ v.strengths.length ∧ v.strengths.length ≤ 4) ∧
  (∀ e ∈ v.attentionNeeded, e.name.length ≤ 80 ∧ e.reason.length ≤ 160) ∧
  (2 ≤ v.nextSteps.length ∧ v.nextSteps.length ≤ 4)

/-- A 200-character subject name — accepted as-is by the validator, which
does not cap subject length. -/
def longSubject : String := String.mk (List.replicate 200 'a')

/-- A valid student whose only grade is in the 200-character subject:
average 90, participation 8, completion 95, improving. -/
def longSubjectStudent : Student :=
  { id := "S3"
    name := "L"
    email := "l@e.io"
    grades := [{ subject := longSubject, score := 90 }]
    participationScore := 8
    assignmentCompletionRate := 95
    teacherNotes := ""
    performanceTrend := PerformanceTrend.improving
    lastAssessmentDate := "2024-09-01" }

theorem analyzeStudent_longSubject :
    (analyzeStudent longSubjectStudent).improvementAreas =
      ["Focus on weaker subjects: " ++ longSubject] ∧
    (analyzeStudent longSubjectStudent).strengths ≠ [] := by
  have havg : average [(90:ℚ)] = 90 := by
    simp only [average, jsRound, ratFloor_eq_floor]
    norm_num
  simp only [analyzeStudent, longSubjectStudent, List.map_cons, List.map_nil, bottomN, topN]
  simp only [havg]
  norm_num [List.mergeSort_singleton, joinComma]
  exact ⟨by decide, by decide⟩

/-- Claim C2 counterexample: for the analysis of a valid student with a
200-character subject name, the fallback output violates the 180-character
cap on improvementAreas entries — the fallback is not schema-valid by
construction. -/
theorem fallback_not_schema_valid :
    ¬ studentSchemaOk
        (buildFallbackStudentInsights (analyzeStudent longSubjectStudent) none) := by
  obtain ⟨himp, hstr⟩ := analyzeStudent_longSubject
  have hfall : (buildFallbackStudentInsights (analyzeStudent longSubjectStudent) none).improvementAreas =
      ["Focus on weaker subjects: " ++ longSubject] := by
    simp only [buildFallbackStudentInsights, himp]
    simp
  intro hschema
  obtain ⟨_, _, _, _, hentries, _⟩ := hschema
  have hb := hentries ("Focus on weaker subjects: " ++ longSubject)
    (by rw [hfall]; exact List.mem_cons_self _ _)
  have hlen : ("Focus on weaker subjects: " ++ longSubject).length = 226 := by
    rw [String.length_append]
    decide
  omega

theorem pushCapped_length_le (cap : Nat) :
    ∀ (items start : List String), start.length ≤ cap →
      (pushCapped cap start items).length ≤ cap := by
  intro items
  induction items with
  | nil => intro start h; simpa [pushCapped] using h
  | cons i is ih =>
    intro start h
    rw [pushCapped_cons]
    by_cases hlt : start.length < cap
    · rw [if_pos hlt]
      refine ih _ ?_
      rw [List.length_append]
      simp only [List.length_singleton]
      omega
    · rw [if_neg hlt]
      exact ih _ h

theorem jsTrim_ne_empty_imp {s : String} (h : jsTrim s ≠ "") : s ≠ "" := by
  intro he
  subst he
  exact h rfl

theorem mem_fallback_strategies (analysis : StudentAnalysis)
    (prefs : Option TeacherPreferences) (x : String)
    (hx : x ∈ (buildFallbackStudentInsights analysis prefs).strategies) :
    x = "Use a checklist and finish assignments 24 hours before the deadline." ∨
    x = "Prepare one question or comment before class and share it." ∨
    x = studyRoutineTip ∨
    x = "Spend extra practice time on " ++
        joinComma (analysis.metrics.lowestSubjects.map (fun grade => grade.subject)) ++
        " with short, focused sessions." ∨
    (x ∈ prefStrategies prefs ∧ jsTrim x ≠ "") ∨
    x = "Ask for quick feedback from your teacher on one recent assignment." := by
  simp only [buildFallbackStudentInsights] at hx
  have h1 := List.take_subset 3 _ hx
  rcases mem_padToTwo _ _ _ h1 with h2 | h2
  · obtain ⟨t, ht, htm⟩ := pushCapped_eq_append 3
      ((prefStrategies prefs).filter (fun item => jsTrim item ≠ "")) _
    rw [ht] at h2
    rcases List.mem_append.mp h2 with h3 | h3
    · rcases mem_ite_append _ _ _ _ h3 with h4 | h4
      · rcases mem_ite_append _ _ _ _ h4 with h5 | h5
        · rcases mem_ite_append _ _ _ _ h5 with h6 | h6
          · rcases mem_ite_append _ _ _ _ h6 with h7 | h7
            · simp at h7
            · exact Or.inl h7
          · exact Or.inr (Or.inl h6)
        · exact Or.inr (Or.inr (Or.inl h5))
      · exact Or.inr (Or.inr (Or.inr (Or.inl h4)))
    · have hmf := List.mem_filter.mp (htm x h3)
      exact Or.inr (Or.inr (Or.inr (Or.inr (Or.inl
        ⟨hmf.1, of_decide_eq_true hmf.2⟩))))
  · exact Or.inr (Or.inr (Or.inr (Or.inr (Or.inr h2))))

theorem natRepr_le_three : ∀ d : Nat, d ≤ 100 → (Nat.repr d).length ≤ 3 := by decide

theorem natRepr_le_one : ∀ d : Nat, d ≤ 9 → (Nat.repr d).length ≤ 1 := by decide

theorem toFixed1_length_le (q : ℚ) (h0 : 0 ≤ q) (h100 : q ≤ 100) :
    (toFixed1 q).length ≤ 5 := by
  have hn0 : 0 ≤ jsRound (q * 10) := by
    rw [jsRound, ratFloor_eq_floor]
    apply Int.le_floor.mpr
    push_cast
    nlinarith
  have hn1 : jsRound (q * 10) ≤ 1000 := by
    rw [jsRound, ratFloor_eq_floor]
    have hlt : (q * 10 + 1 / 2 : ℚ) < ((1001 : ℤ) : ℚ) := by push_cast; nlinarith
    have h2 := Int.floor_lt.mpr hlt
    omega
  simp only [toFixed1]
  rw [if_neg (by omega)]
  have h10 : (jsRound (q * 10)).natAbs / 10 ≤ 100 := by omega
  have hm : (jsRound (q * 10)).natAbs % 10 ≤ 9 := by omega
  have hr1 := natRepr_le_three _ h10
  have hr2 := natRepr_le_one _ hm
  rw [String.length_append, String.length_append, String.length_append]
  have hdot : (".").length = 1 := by decide
  have hemp : ("").length = 0 := by decide
  omega

/-- The structural bounds of the fallback that hold for every input:
cardinalities, and non-emptiness of the purely synthesized fields (the
strategy entries, the goal and the fixed encouragement). -/
def studentFallbackAlwaysOk (v : StudentInsights) : Prop :=
  (1 ≤ v.strengths.length ∧ v.strengths.length ≤ 3) ∧
  (1 ≤ v.improvementAreas.length ∧ v.improvementAreas.length ≤ 2) ∧
  (2 ≤ v.strategies.length ∧ v.strategies.length ≤ 3) ∧
  (∀ e ∈ v.strategies, e ≠ "") ∧
  v.nextStepGoal ≠ "" ∧
  (v.encouragement ≠ "" ∧ v.encouragement.length ≤ 200)

/-- The teacher-side structural bounds holding for every input: overview
non-empty, strengths count, the fixed reason within its cap, nextSteps
count. -/
def teacherFallbackAlwaysOk (v : TeacherInsights) : Prop :=
  v.classOverview ≠ "" ∧
  (1 ≤ v.strengths.length ∧ v.strengths.length ≤ 4) ∧
  (∀ e ∈ v.attentionNeeded, e.reason.length ≤ 160) ∧
  (2 ≤ v.nextSteps.length ∧ v.nextSteps.length ≤ 4)

/-- Claim C2 amended: for every input whatsoever, the fallback outputs
satisfy the cardinality bounds (strengths 1–3, improvementAreas 1–2,
strategies 2–3; teacher strengths 1–4, nextSteps 2–4) and the
non-emptiness/caps of the purely synthesized fields (strategy entries,
goal, encouragement, class overview, the fixed attention reason); the
remaining length caps on input-derived strings hold provided the inputs
respect them — the analysis's observation strings within 180 characters,
the joined weak-subject names within 121 characters, preferred strategies
within 180, the first (trimmed) class goal within 200, the class average
in [0, 100] and attention names within 80 characters.  (Without those side
conditions the caps can be violated, as the counterexample with a
200-character subject name shows: the generators never truncate.) -/
theorem fallback_schema_ok_of_bounded :
    (∀ (analysis : StudentAnalysis) (prefs : Option TeacherPreferences)
        (summary : TeacherSummary),
      studentFallbackAlwaysOk (buildFallbackStudentInsights analysis prefs) ∧
      teacherFallbackAlwaysOk (buildFallbackTeacherInsights summary prefs)) ∧
    (∀ (analysis : StudentAnalysis) (prefs : Option TeacherPreferences)
        (summary : TeacherSummary),
      (∀ e ∈ analysis.strengths, e ≠ "" ∧ e.length ≤ 180) →
      (∀ e ∈ analysis.improvementAreas, e ≠ "" ∧ e.length ≤ 180) →
      (joinComma (analysis.metrics.lowestSubjects.map
        (fun grade => grade.subject))).length ≤ 121 →
      (∀ e ∈ prefStrategies prefs, e.length ≤ 180) →
      (∀ g, firstGoalTrimmed prefs = some g → g.length ≤ 200) →
      0 ≤ summary.classAverage → summary.classAverage ≤ 100 →
      (∀ n ∈ summary.attentionNeeded, n.length ≤ 80) →
      studentSchemaOk (buildFallbackStudentInsights analysis prefs) ∧
      teacherSchemaOk (buildFallbackTeacherInsights summary prefs)) := by
  constructor
  · intro analysis prefs summary
    constructor
    · refine ⟨?_, ?_, ?_, ?_, ?_, ?_⟩
      · -- strengths count
        by_cases hl : analysis.strengths.length > 0
        · have hrw : (buildFallbackStudentInsights analysis prefs).strengths =
              analysis.strengths.take 3 := by
            simp only [buildFallbackStudentInsights, if_pos hl]
          rw [hrw, List.length_take]
          exact ⟨le_min (by norm_num) (by omega), min_le_left _ _⟩
        · have hrw : (buildFallbackStudentInsights analysis prefs).strengths =
              ["You\u0027re making steady progress across your classes."] := by
            simp only [buildFallbackStudentInsights, if_neg hl]
            rfl
          rw [hrw]
          exact ⟨by decide, by decide⟩
      · -- improvementAreas count
        by_cases hl : analysis.improvementAreas.length > 0
        · have hrw : (buildFallbackStudentInsights analysis prefs).improvementAreas =
              analysis.improvementAreas.take 2 := by
            simp only [buildFallbackStudentInsights, if_pos hl]
          rw [hrw, List.length_take]
          exact ⟨le_min (by norm_num) (by omega), min_le_left _ _⟩
        · have hrw : (buildFallbackStudentInsights analysis prefs).improvementAreas =
              ["Keep building consistency with assignments and review routines."] := by
            simp only [buildFallbackStudentInsights, if_neg hl]
          rw [hrw]
          exact ⟨by decide, by decide⟩
      · -- strategies count
        simp only [buildFallbackStudentInsights, List.length_take]
        exact ⟨le_min (by norm_num) (padToTwo_length _ _), min_le_left _ _⟩
      · -- strategies entries are non-empty
        intro e he
        rcases mem_fallback_strategies analysis prefs e he with h | h | h | h | ⟨_, ht⟩ | h
        · rw [h]; decide
        · rw [h]; decide
        · rw [h]; decide
        · rw [h]
          have h29 : ("Spend extra practice time on ").length = 29 := by decide
          apply ne_empty_of_length_pos
          rw [String.length_append, String.length_append]
          omega
        · exact jsTrim_ne_empty_imp ht
        · rw [h]; decide
      · -- nextStepGoal is non-empty
        cases hg : firstGoalTrimmed prefs with
        | none =>
          have hrw : (buildFallbackStudentInsights analysis prefs).nextStepGoal =
              "Choose one focus area and practice it three times this week." := by
            simp only [buildFallbackStudentInsights, hg]
          rw [hrw]
          decide
        | some g =>
          by_cases hge : g = ""
          · have hrw : (buildFallbackStudentInsights analysis prefs).nextStepGoal =
                "Choose one focus area and practice it three times this week." := by
              simp only [buildFallbackStudentInsights, hg, if_pos hge]
            rw [hrw]
            decide
          · have hrw : (buildFallbackStudentInsights analysis prefs).nextStepGoal = g := by
              simp only [buildFallbackStudentInsights, hg, if_neg hge]
            rw [hrw]
            exact hge
      · -- encouragement
        have hrw : (buildFallbackStudentInsights analysis prefs).encouragement =
            "Small steps add up—keep going, and reach out if you need support." := by
          simp only [buildFallbackStudentInsights]
        rw [hrw]
        exact ⟨by decide, by decide⟩
    · refine ⟨?_, ?_, ?_, ?_⟩
      · -- classOverview is non-empty
        have hrw : (buildFallbackTeacherInsights summary prefs).classOverview =
            "Class average is " ++ toFixed1 summary.classAverage ++
              ". Overall trends are stable with a few students needing additional attention." := by
          simp only [buildFallbackTeacherInsights]
        rw [hrw]
        apply ne_empty_of_length_pos
        rw [String.length_append, String.length_append]
        have h17 : ("Class average is ").length = 17 := by decide
        omega
      · -- teacher strengths count
        by_cases hl : summary.topStudents.length > 0
        · have hrw : (buildFallbackTeacherInsights summary prefs).strengths =
              ["Top performers this cycle: " ++ joinComma summary.topStudents ++ "."] := by
            simp only [buildFallbackTeacherInsights, if_pos hl]
          rw [hrw]
          exact ⟨by simp, by simp⟩
        · have hrw : (buildFallbackTeacherInsights summary prefs).strengths =
              ["Several students are maintaining steady performance."] := by
            simp only [buildFallbackTeacherInsights, if_neg hl]
          rw [hrw]
          exact ⟨by decide, by decide⟩
      · -- attention reasons within the cap
        intro e he
        have hrw : (buildFallbackTeacherInsights summary prefs).attentionNeeded =
            summary.attentionNeeded.map
              (fun nm => AttentionEntry.mk nm
                "Flagged for additional check-ins based on recent trends.") := by
          simp only [buildFallbackTeacherInsights]
        rw [hrw] at he
        obtain ⟨nm, hnm, rfl⟩ := List.mem_map.mp he
        exact (by decide :
          ("Flagged for additional check-ins based on recent trends." : String).length ≤ 160)
      · -- nextSteps count
        have h0 : (pushCapped 2 [] (prefStrategies prefs)).length ≤ 2 :=
          pushCapped_length_le 2 _ [] (by simp)
        by_cases hlt : (pushCapped 2 [] (prefStrategies prefs)).length < 2
        · have hrw : (buildFallbackTeacherInsights summary prefs).nextSteps =
              (pushCapped 2 [] (prefStrategies prefs) ++
                ["Plan one small-group session for students needing support.",
                  "Highlight one success story to reinforce growth mindset."]).take 4 := by
            simp only [buildFallbackTeacherInsights, if_pos hlt]
          rw [hrw, List.length_take, List.length_append]
          constructor
          · exact le_min (by norm_num) (by simp)
          · exact min_le_left _ _
        · have hrw : (buildFallbackTeacherInsights summary prefs).nextSteps =
              (pushCapped 2 [] (prefStrategies prefs)).take 4 := by
            simp only [buildFallbackTeacherInsights, if_neg hlt]
          rw [hrw, List.length_take]
          constructor
          · exact le_min (by norm_num) (by omega)
          · exact min_le_left _ _
  · intro analysis prefs summary hs hi hsub hpref hgoal havg0 havg100 hnames
    constructor
    · refine ⟨?_, ?_, ?_, ?_, ?_, ?_, ?_, ?_, ?_⟩
      · -- positiveObservation
        by_cases hl : analysis.strengths.length > 0
        · have hrw : (buildFallbackStudentInsights analysis prefs).positiveObservation =
              analysis.strengths.headD "" := by
            simp only [buildFallbackStudentInsights, if_pos hl]
          rw [hrw]
          have hmem : analysis.strengths.headD "" ∈ analysis.strengths :=
            headD_mem_of_ne_nil _ _ (by intro h; rw [h] at hl; simp at hl)
          obtain ⟨hne, hle⟩ := hs _ hmem
          exact ⟨hne, by omega⟩
        · have hrw : (buildFallbackStudentInsights analysis prefs).positiveObservation =
              "You\u0027re making steady progress across your classes." := by
            simp only [buildFallbackStudentInsights, if_neg hl]
            rfl
          rw [hrw]
          exact ⟨by decide, by decide⟩
      · -- strengths count
        by_cases hl : analysis.strengths.length > 0
        · have hrw : (buildFallbackStudentInsights analysis prefs).strengths =
              analysis.strengths.take 3 := by
            simp only [buildFallbackStudentInsights, if_pos hl]
          rw [hrw, List.length_take]
          exact ⟨le_min (by norm_num) (by omega), min_le_left _ _⟩
        · have hrw : (buildFallbackStudentInsights analysis prefs).strengths =
              ["You\u0027re making steady progress across your classes."] := by
            simp only [buildFallbackStudentInsights, if_neg hl]
            rfl
          rw [hrw]
          exact ⟨by decide, by decide⟩
      · -- strengths entries
        intro e he
        by_cases hl : analysis.strengths.length > 0
        · have hrw : (buildFallbackStudentInsights analysis prefs).strengths =
              analysis.strengths.take 3 := by
            simp only [buildFallbackStudentInsights, if_pos hl]
          rw [hrw] at he
          exact hs _ (List.take_subset 3 _ he)
        · have hrw : (buildFallbackStudentInsights analysis prefs).strengths =
              ["You\u0027re making steady progress across your classes."] := by
            simp only [buildFallbackStudentInsights, if_neg hl]
            rfl
          rw [hrw] at he
          simp at he
          rw [he]
          exact ⟨by decide, by decide⟩
      · -- improvementAreas count
        by_cases hl : analysis.improvementAreas.length > 0
        · have hrw : (buildFallbackStudentInsights analysis prefs).improvementAreas =
              analysis.improvementAreas.take 2 := by
            simp only [buildFallbackStudentInsights, if_pos hl]
          rw [hrw, List.length_take]
          exact ⟨le_min (by norm_num) (by omega), min_le_left _ _⟩
        · have hrw : (buildFallbackStudentInsights analysis prefs).improvementAreas =
              ["Keep building consistency with assignments and review routines."] := by
            simp only [buildFallbackStudentInsights, if_neg hl]
          rw [hrw]
          exact ⟨by decide, by decide⟩
      · -- improvementAreas entries
        intro e he
        by_cases hl : analysis.improvementAreas.length > 0
        · have hrw : (buildFallbackStudentInsights analysis prefs).improvementAreas =
              analysis.improvementAreas.take 2 := by
            simp only [buildFallbackStudentInsights, if_pos hl]
          rw [hrw] at he
          exact hi _ (List.take_subset 2 _ he)
        · have hrw : (buildFallbackStudentInsights analysis prefs).improvementAreas =
              ["Keep building consistency with assignments and review routines."] := by
            simp only [buildFallbackStudentInsights, if_neg hl]
          rw [hrw] at he
          simp at he
          rw [he]
          exact ⟨by decide, by decide⟩
      · -- strategies count
        simp only [buildFallbackStudentInsights, List.length_take]
        exact ⟨le_min (by norm_num) (padToTwo_length _ _), min_le_left _ _⟩
      · -- strategies entries
        intro e he
        rcases mem_fallback_strategies analysis prefs e he with h | h | h | h | ⟨hm, ht⟩ | h
        · rw [h]; exact ⟨by decide, by decide⟩
        · rw [h]; exact ⟨by decide, by decide⟩
        · rw [h]; exact ⟨by decide, by decide⟩
        · rw [h]
          have h29 : ("Spend extra practice time on ").length = 29 := by decide
          have h30 : (" with short, focused sessions.").length = 30 := by decide
          constructor
          · apply ne_empty_of_length_pos
            rw [String.length_append, String.length_append]
            omega
          · rw [String.length_append, String.length_append]
            omega
        · exact ⟨jsTrim_ne_empty_imp ht, hpref _ hm⟩
        · rw [h]; exact ⟨by decide, by decide⟩
      · -- nextStepGoal
        cases hg : firstGoalTrimmed prefs with
        | none =>
          have hrw : (buildFallbackStudentInsights analysis prefs).nextStepGoal =
              "Choose one focus area and practice it three times this week." := by
            simp only [buildFallbackStudentInsights, hg]
          rw [hrw]
          exact ⟨by decide, by decide⟩
        | some g =>
          by_cases hge : g = ""
          · have hrw : (buildFallbackStudentInsights analysis prefs).nextStepGoal =
                "Choose one focus area and practice it three times this week." := by
              simp only [buildFallbackStudentInsights, hg, if_pos hge]
            rw [hrw]
            exact ⟨by decide, by decide⟩
          · have hrw : (buildFallbackStudentInsights analysis prefs).nextStepGoal = g := by
              simp only [buildFallbackStudentInsights, hg, if_neg hge]
            rw [hrw]
            exact ⟨hge, hgoal g hg⟩
      · -- encouragement
        have hrw : (buildFallbackStudentInsights analysis prefs).encouragement =
            "Small steps add up—keep going, and reach out if you need support." := by
          simp only [buildFallbackStudentInsights]
        rw [hrw]
        exact ⟨by decide, by decide⟩
    · refine ⟨?_, ?_, ?_, ?_⟩
      · -- classOverview
        have hT := toFixed1_length_le summary.classAverage havg0 havg100
        have h17 : ("Class average is ").length = 17 := by decide
        have hsuf : (". Overall trends are stable with a few students needing additional attention.").length ≤ 100 := by decide
        have hsuf1 : 1 ≤ (". Overall trends are stable with a few students needing additional attention.").length := by decide
        have hrw : (buildFallbackTeacherInsights summary prefs).classOverview =
            "Class average is " ++ toFixed1 summary.classAverage ++
              ". Overall trends are stable with a few students needing additional attention." := by
          simp only [buildFallbackTeacherInsights]
        rw [hrw]
        constructor
        · apply ne_empty_of_length_pos
          rw [String.length_append, String.length_append]
          omega
        · rw [String.length_append, String.length_append]
          omega
      · -- teacher strengths count
        by_cases hl : summary.topStudents.length > 0
        · have hrw : (buildFallbackTeacherInsights summary prefs).strengths =
              ["Top performers this cycle: " ++ joinComma summary.topStudents ++ "."] := by
            simp only [buildFallbackTeacherInsights, if_pos hl]
          rw [hrw]
          exact ⟨by simp, by simp⟩
        · have hrw : (buildFallbackTeacherInsights summary prefs).strengths =
              ["Several students are maintaining steady performance."] := by
            simp only [buildFallbackTeacherInsights, if_neg hl]
          rw [hrw]
          exact ⟨by decide, by decide⟩
      · -- attention entries
        intro e he
        have hrw : (buildFallbackTeacherInsights summary prefs).attentionNeeded =
            summary.attentionNeeded.map
              (fun nm => AttentionEntry.mk nm
                "Flagged for additional check-ins based on recent trends.") := by
          simp only [buildFallbackTeacherInsights]
        rw [hrw] at he
        obtain ⟨nm, hnm, rfl⟩ := List.mem_map.mp he
        exact ⟨hnames nm hnm,
          (by decide :
            ("Flagged for additional check-ins based on recent trends." : String).length ≤ 160)⟩
      · -- nextSteps count
        have h0 : (pushCapped 2 [] (prefStrategies prefs)).length ≤ 2 :=
          pushCapped_length_le 2 _ [] (by simp)
        by_cases hlt : (pushCapped 2 [] (prefStrategies prefs)).length < 2
        · have hrw : (buildFallbackTeacherInsights summary prefs).nextSteps =
              (pushCapped 2 [] (prefStrategies prefs) ++
                ["Plan one small-group session for students needing support.",
                  "Highlight one success story to reinforce growth mindset."]).take 4 := by
            simp only [buildFallbackTeacherInsights, if_pos hlt]
          rw [hrw, List.length_take, List.length_append]
          constructor
          · exact le_min (by norm_num) (by simp)
          · exact min_le_left _ _
        · have hrw : (buildFallbackTeacherInsights summary prefs).nextSteps =
              (pushCapped 2 [] (prefStrategies prefs)).take 4 := by
            simp only [buildFallbackTeacherInsights, if_neg hlt]
          rw [hrw, List.length_take]
          constructor
          · exact le_min (by norm_num) (by omega)
          · exact min_le_left _ _

/-- A concrete class summary within the documented ranges. -/
def schemaWitnessSummary : TeacherSummary :=
  { classAverage := 50
    topStudents := ["A", "B"]
    attentionNeeded := ["C"]
    notes := [] }

/-- Witness for the amended claim C2: the unconditional structural bounds
hold even at the cap-violating long-subject analysis of the counterexample,
and the full schema holds at concrete bounded inputs. -/
theorem fallback_schema_ok_of_bounded_witness :
    (studentFallbackAlwaysOk
        (buildFallbackStudentInsights (analyzeStudent longSubjectStudent) none) ∧
      teacherFallbackAlwaysOk (buildFallbackTeacherInsights schemaWitnessSummary none)) ∧
    (studentSchemaOk (buildFallbackStudentInsights witnessAnalysis none) ∧
      teacherSchemaOk (buildFallbackTeacherInsights schemaWitnessSummary none)) :=
  ⟨fallback_schema_ok_of_bounded.1 (analyzeStudent longSubjectStudent) none
      schemaWitnessSummary,
    fallback_schema_ok_of_bounded.2 witnessAnalysis none schemaWitnessSummary
      (by decide) (by decide) (by decide) (by decide)
      (fun g h => Option.noConfusion h) (by decide) (by decide) (by decide)⟩
